import Mathlib

/-!
Shallow embedding of the WardobeSuite scan-to-queue pipeline.

Sources embedded (final backend variant, which the claims cite):
  * src/backend/app/models.py            — table shapes (User auth columns, audit
    timestamps and the opaque extracted_json payload are omitted: no claim
    mentions them)
  * src/backend/app/routers/scan.py      — `_process_emails_into_queue`,
    `scan_initial`, `scan_new`
  * src/backend/app/routers/review.py    — `approve_item`, `reject_item`
  * src/backend/app/emailparser.py       — `parse_json` (analytics recompute)
  * src/backend/app/routers/auth.py      — `_ensure_scan_settings`
  * src/app/models.py                    — the legacy dedupe unique index

Modelling conventions:
  * Python floats are embedded as exact rationals (ℚ).
  * `datetime` instants are embedded as integers; `datetime.fromisoformat`
    is an abstract parameter `fromiso : String → Option Int` (failure = none,
    matching the try/except that degrades to null).
  * The Gemini extraction adapter is an abstract parameter
    `extract : Email → Option ExtractedEmail` (None = hard failure).
  * The SQLite store is a record of row lists; `db.add` + `db.commit` is
    embedded as an append guarded by the table's declared unique indexes,
    represented by a `violates` predicate.  The backend models declare no
    unique index on review_queue_items (`backendConstraint` is constantly
    false); the legacy models declare `ix_review_queue_dedupe`
    (`legacyDedupeIndex`, with SQLite's NULLs-are-distinct semantics).
  * Python truthiness on `x or y` is embedded by `pyOrStr` / `pyOrInt`
    (None, 0 and "" are falsy).
-/

/-- Python `round` on a rational: round half to even (banker's rounding). -/
def pyRound (q : ℚ) : ℤ :=
  let f : ℤ := ⌊q⌋
  if q - f < 1/2 then f
  else if 1/2 < q - f then f + 1
  else if f % 2 = 0 then f else f + 1

/-- Python `str.strip()`: drop whitespace from both ends. -/
def pyStrip (s : String) : String :=
  (((s.data.dropWhile Char.isWhitespace).reverse.dropWhile
      Char.isWhitespace).reverse).asString

/-- Python `str.lower()`. -/
def pyLower (s : String) : String := (s.data.map Char.toLower).asString

/-- `item.item_name.strip().lower()` from scan.py line 111. -/
def normalizeName (s : String) : String := pyLower (pyStrip s)

/-- Python truthiness of an optional string: None and "" are falsy. -/
def truthyStr : Option String → Bool
  | some s => !(s == "")
  | none => false

/-- Python `a or b` on optional strings. -/
def pyOrStr (a b : Option String) : Option String :=
  if truthyStr a then a else b

/-- Python `a or b` where `b` is a plain string (the result is a string). -/
def pyOrStrD (a : Option String) (b : String) : String :=
  match a with
  | some s => if s == "" then b else s
  | none => b

/-- Python `a or b` on optional ints: None and 0 are falsy. -/
def pyOrInt (a b : Option Int) : Option Int :=
  match a with
  | some v => if v = 0 then b else some v
  | none => b

/-- Python `a or b` where `a` is an optional int and `b` a plain int. -/
def pyOrIntD (a : Option Int) (b : Int) : Int :=
  match a with
  | some v => if v = 0 then b else v
  | none => b

/-- gemini_client.py: `CONFIDENCE_THRESHOLD = 0.65`. -/
def CONFIDENCE_THRESHOLD : ℚ := mkRat 13 20

/-- One candidate item from the extraction adapter (gemini_client.ExtractedItem). -/
structure ExtractedItem where
  item_name : String
  price : Option ℚ
  purchased_at : Option String
  image_url : Option String
  category_guess : Option String
  size : Option String
  confidence : ℚ
  is_clothing : Bool
deriving Repr, DecidableEq

/-- One extraction result per email (gemini_client.ExtractedEmail). -/
structure ExtractedEmail where
  merchant : Option String
  items : List ExtractedItem
deriving Repr, DecidableEq

/-- One fetched mailbox message (the dict produced by gmail_client.fetch_emails). -/
structure Email where
  message_id : String
  thread_id : String
  subject : String
  plain_text : String
  html_text : String
  prices_found : List ℚ
  image_urls : List String
deriving Repr, DecidableEq

/-- models.ReviewQueueItem (audit columns extracted_json / created_at omitted). -/
structure ReviewQueueItem where
  id : Nat
  user_id : String
  source : String
  status : String
  merchant : Option String
  item_name : String
  category : Option String
  size : Option String
  price_cents : Option Int
  currency : String
  purchased_at : Option Int
  email_message_id : Option String
  email_thread_id : Option String
  image_url : Option String
deriving Repr, DecidableEq

/-- models.Item — the approved wardrobe entry (created_at omitted). -/
structure Item where
  id : Nat
  user_id : String
  merchant : Option String
  item_name : String
  category : String
  size : Option String
  color : Option String
  price_cents : Int
  currency : String
  purchased_at : Option Int
  wear_count : Int
  source : String
  image_url : Option String
deriving Repr, DecidableEq

/-- models.ScanSettings. -/
structure ScanSettings where
  user_id : String
  initial_scan_days : Int
  last_scan_at : Option Int
deriving Repr, DecidableEq

/-- models.UserAnalytics (updated_at omitted; the four JSON-string columns keep
their dictionaries as insertion-ordered association lists). -/
structure UserAnalytics where
  user_id : String
  total_spending_cents : Int
  total_purchases : Nat
  average_purchase_cents : Int
  frequent_merchant : Option String
  frequent_merchant_amount : Option Int
  merchant_freq : List (String × Int)
  most_spent_merchant : Option String
  most_spent_merchant_amount : Option Int
  merchant_spending : List (String × Int)
  frequent_category : Option String
  frequent_category_amount : Option Int
  category_freq : List (String × Int)
  most_spent_category : Option String
  most_spent_category_amount : Option Int
  category_spending : List (String × Int)
  first_purchase_at : Option Int
  last_purchase_at : Option Int
deriving Repr, DecidableEq

/-- The SQLite database: one list per table, plus a fresh-id counter that
stands in for generate_uuid. -/
structure DB where
  reviewItems : List ReviewQueueItem
  items : List Item
  scanSettings : List ScanSettings
  analytics : List UserAnalytics
  nextId : Nat
deriving Repr, DecidableEq

/-- Python dict lookup `d.get(k)` on an insertion-ordered association list. -/
def dictGet (d : List (String × Int)) (k : String) : Option Int :=
  (d.find? (fun p => p.1 == k)).map Prod.snd

/-- Python `d.get(k, v)`. -/
def dictGetD (d : List (String × Int)) (k : String) (v : Int) : Int :=
  (dictGet d k).getD v

/-- Python `d[k] = v` (updates in place, appends new keys at the end). -/
def dictInsert (d : List (String × Int)) (k : String) (v : Int) :
    List (String × Int) :=
  if (d.find? (fun p => p.1 == k)).isSome then
    d.map (fun p => if p.1 == k then (p.1, v) else p)
  else d ++ [(k, v)]

/-- Python `max(d, key=d.get)`: the first key (in insertion order) holding the
maximal value; the current best is replaced only on a strict improvement. -/
def dictArgmaxFrom (bk : String) (bv : Int) : List (String × Int) → String
  | [] => bk
  | (k, v) :: rest =>
      if bv < v then dictArgmaxFrom k v rest else dictArgmaxFrom bk bv rest

/-- Python `max(d, key=d.get)` on a possibly-empty dict. -/
def dictArgmax : List (String × Int) → Option String
  | [] => none
  | (k, v) :: rest => some (dictArgmaxFrom k v rest)

/-- backend/app/models.py declares no unique index on review_queue_items:
a commit of a new row never raises IntegrityError for this table. -/
def backendConstraint : List ReviewQueueItem → ReviewQueueItem → Bool :=
  fun _ _ => false

/-- src/app/models.py `ix_review_queue_dedupe`, the legacy unique index on
(user_id, email_message_id, item_name, price_cents).  SQLite treats NULL as
distinct from NULL in unique indexes, so a row whose email_message_id or
price_cents is NULL never collides. -/
def legacyDedupeIndex (rows : List ReviewQueueItem) (row : ReviewQueueItem) :
    Bool :=
  rows.any (fun r =>
    r.user_id == row.user_id &&
    r.email_message_id.isSome && (r.email_message_id == row.email_message_id) &&
    r.item_name == row.item_name &&
    r.price_cents.isSome && (r.price_cents == row.price_cents))

/-- Result of committing one insert (§4.3 `insert_pending`). -/
inductive InsertResult where
  | ok
  | constraintViolation
deriving Repr, DecidableEq

/-- §4.3 `insert_pending`: `db.add(row); db.commit()` against the declared
unique indexes of the review_queue_items table. -/
def insert_pending (violates : List ReviewQueueItem → ReviewQueueItem → Bool)
    (row : ReviewQueueItem) (db : DB) : InsertResult × DB :=
  if violates db.reviewItems row then
    (InsertResult.constraintViolation, db)
  else
    (InsertResult.ok, { db with reviewItems := db.reviewItems ++ [row] })

/-- Image resolution from scan.py lines 127-130: keep the candidate's own url
when truthy, otherwise consume the next unused side-channel hint. Returns the
resolved url and the updated image index. -/
def resolveImage (avail : List String) (imageIdx : Nat) (itUrl : Option String) :
    Option String × Nat :=
  if truthyStr itUrl then (itUrl, imageIdx)
  else if imageIdx < avail.length then (avail.get? imageIdx, imageIdx + 1)
  else (itUrl, imageIdx)

/-- The ReviewQueueItem constructed by scan.py lines 132-146 for one surviving
candidate (id drawn from the fresh-id counter, price via
`int(round(item.price * 100))`, date via the defensive fromisoformat). -/
def buildRow (fromiso : String → Option Int) (uid msgId threadId : String)
    (merchant : Option String) (nid : Nat) (imageUrl : Option String)
    (it : ExtractedItem) : ReviewQueueItem :=
  { id := nid
    user_id := uid
    source := "gmail"
    status := "pending"
    merchant := merchant
    item_name := it.item_name
    category := it.category_guess
    size := none
    price_cents := it.price.map (fun p => pyRound (p * 100))
    currency := "USD"
    purchased_at :=
      match it.purchased_at with
      | some s => if s == "" then none else fromiso s
      | none => none
    email_message_id := some msgId
    email_thread_id := some threadId
    image_url := imageUrl }

/-- Mutable state of the per-email item loop in `_process_emails_into_queue`:
the session, the two counters, `inserted_names_this_email` and `image_index`. -/
structure ItemState where
  db : DB
  queued : Nat
  skipped : Nat
  names : List String
  imageIdx : Nat
deriving Repr, DecidableEq

/-- One iteration of the item loop (scan.py lines 105-155): classification
gate, confidence gate, in-email normalized-name check, row construction,
commit with IntegrityError → rollback + skip. -/
def stepItem (violates : List ReviewQueueItem → ReviewQueueItem → Bool)
    (fromiso : String → Option Int) (uid msgId threadId : String)
    (merchant : Option String) (avail : List String)
    (st : ItemState) (it : ExtractedItem) : ItemState :=
  if !it.is_clothing then st
  else if it.confidence < CONFIDENCE_THRESHOLD then st
  else
    let nname := normalizeName it.item_name
    if st.names.contains nname then
      { st with skipped := st.skipped + 1 }
    else
      let resolved := resolveImage avail st.imageIdx it.image_url
      let row := buildRow fromiso uid msgId threadId merchant st.db.nextId
        resolved.1 it
      if violates st.db.reviewItems row then
        { st with skipped := st.skipped + 1, imageIdx := resolved.2 }
      else
        { db := { st.db with
                    reviewItems := st.db.reviewItems ++ [row]
                    nextId := st.db.nextId + 1 }
          queued := st.queued + 1
          skipped := st.skipped
          names := st.names ++ [nname]
          imageIdx := resolved.2 }

/-- The item loop over one email's extraction result. -/
def itemLoop (violates : List ReviewQueueItem → ReviewQueueItem → Bool)
    (fromiso : String → Option Int) (uid msgId threadId : String)
    (merchant : Option String) (avail : List String) :
    ItemState → List ExtractedItem → ItemState
  | st, [] => st
  | st, it :: rest =>
      itemLoop violates fromiso uid msgId threadId merchant avail
        (stepItem violates fromiso uid msgId threadId merchant avail st it) rest

/-- Mutable state of the email loop, plus an instrumentation field `calls`
recording the message ids handed to the extraction adapter. -/
structure ScanState where
  db : DB
  queued : Nat
  errors : Nat
  skipped : Nat
  calls : List String
deriving Repr, DecidableEq

/-- Layer-1 dedupe query (scan.py lines 81-84): does any ReviewQueueItem exist
for (user, message id)? -/
def hasRowFor (db : DB) (uid msgId : String) : Bool :=
  db.reviewItems.any (fun r =>
    r.user_id == uid && r.email_message_id == some msgId)

/-- One iteration of the email loop (scan.py lines 77-155): layer-1 skip,
extraction (None → error counter), then the item loop. -/
def processEmail (violates : List ReviewQueueItem → ReviewQueueItem → Bool)
    (extract : Email → Option ExtractedEmail) (fromiso : String → Option Int)
    (uid : String) (st : ScanState) (e : Email) : ScanState :=
  if hasRowFor st.db uid e.message_id then
    { st with skipped := st.skipped + 1 }
  else
    match extract e with
    | none =>
        { st with errors := st.errors + 1, calls := st.calls ++ [e.message_id] }
    | some ex =>
        let fin := itemLoop violates fromiso uid e.message_id e.thread_id
          ex.merchant e.image_urls
          { db := st.db, queued := 0, skipped := 0, names := [], imageIdx := 0 }
          ex.items
        { db := fin.db
          queued := st.queued + fin.queued
          errors := st.errors
          skipped := st.skipped + fin.skipped
          calls := st.calls ++ [e.message_id] }

/-- The email loop. -/
def processEmails (violates : List ReviewQueueItem → ReviewQueueItem → Bool)
    (extract : Email → Option ExtractedEmail) (fromiso : String → Option Int)
    (uid : String) : ScanState → List Email → ScanState
  | st, [] => st
  | st, e :: rest =>
      processEmails violates extract fromiso uid
        (processEmail violates extract fromiso uid st e) rest

/-- The structured count object returned by every scan. -/
structure ScanResponse where
  queued_count : Nat
  scanned_messages : Nat
  errors : Nat
  skipped_duplicates : Nat
deriving Repr, DecidableEq

/-- scan.py `_process_emails_into_queue(emails, user_id, db)`. -/
def process_emails_into_queue
    (violates : List ReviewQueueItem → ReviewQueueItem → Bool)
    (extract : Email → Option ExtractedEmail) (fromiso : String → Option Int)
    (emails : List Email) (uid : String) (db : DB) : ScanResponse × DB :=
  let fin := processEmails violates extract fromiso uid
    { db := db, queued := 0, errors := 0, skipped := 0, calls := [] } emails
  ({ queued_count := fin.queued
     scanned_messages := emails.length
     errors := fin.errors
     skipped_duplicates := fin.skipped }, fin.db)

/-- emailparser.py: the accumulators of the analytics loop. -/
structure AnalyticsAcc where
  amount : Int
  num : Nat
  mFreq : List (String × Int)
  mSpend : List (String × Int)
  cFreq : List (String × Int)
  cSpend : List (String × Int)
deriving Repr, DecidableEq

/-- emailparser.py lines 32-43: accumulate one non-rejected queue item
(`item.merchant or "Unknown"`, `item.category or "Other"`,
`item.price_cents or 0`). -/
def analyticsStep (acc : AnalyticsAcc) (it : ReviewQueueItem) : AnalyticsAcc :=
  let merchant := pyOrStrD it.merchant "Unknown"
  let category := pyOrStrD it.category "Other"
  let priceCents := pyOrIntD it.price_cents 0
  { amount := acc.amount + priceCents
    num := acc.num + 1
    mFreq := dictInsert acc.mFreq merchant (dictGetD acc.mFreq merchant 0 + 1)
    mSpend := dictInsert acc.mSpend merchant
      (dictGetD acc.mSpend merchant 0 + priceCents)
    cFreq := dictInsert acc.cFreq category (dictGetD acc.cFreq category 0 + 1)
    cSpend := dictInsert acc.cSpend category
      (dictGetD acc.cSpend category 0 + priceCents) }

/-- The analytics loop over the item list. -/
def analyticsLoop : AnalyticsAcc → List ReviewQueueItem → AnalyticsAcc
  | acc, [] => acc
  | acc, it :: rest => analyticsLoop (analyticsStep acc it) rest

/-- emailparser.py lines 13-20: all non-rejected ReviewQueueItems of a user. -/
def nonRejectedItems (db : DB) (uid : String) : List ReviewQueueItem :=
  db.reviewItems.filter (fun r => r.user_id == uid && !(r.status == "rejected"))

/-- emailparser.py `parse_json(user_id, db)`: recompute and upsert the
UserAnalytics row.  New rows take the column defaults for every field the
code does not pass — in particular first_purchase_at and last_purchase_at
stay NULL; the update branch likewise never touches them. -/
def parse_json (uid : String) (db : DB) : DB :=
  let items := nonRejectedItems db uid
  if items.isEmpty then db
  else
    let acc0 : AnalyticsAcc :=
      { amount := 0, num := 0, mFreq := [], mSpend := [], cFreq := [], cSpend := [] }
    let acc := analyticsLoop acc0 items
    if acc.num = 0 then db
    else
      let avg := Int.fdiv acc.amount (acc.num : Int)
      let fm := dictArgmax acc.mFreq
      let sm := dictArgmax acc.mSpend
      let fc := dictArgmax acc.cFreq
      let sc := dictArgmax acc.cSpend
      match db.analytics.find? (fun a => a.user_id == uid) with
      | none =>
          { db with analytics := db.analytics ++
              [{ user_id := uid
                 total_spending_cents := acc.amount
                 total_purchases := acc.num
                 average_purchase_cents := avg
                 frequent_merchant := fm
                 frequent_merchant_amount := fm.bind (dictGet acc.mFreq)
                 merchant_freq := acc.mFreq
                 most_spent_merchant := sm
                 most_spent_merchant_amount := sm.bind (dictGet acc.mSpend)
                 merchant_spending := acc.mSpend
                 frequent_category := fc
                 frequent_category_amount := fc.bind (dictGet acc.cFreq)
                 category_freq := acc.cFreq
                 most_spent_category := sc
                 most_spent_category_amount := sc.bind (dictGet acc.cSpend)
                 category_spending := acc.cSpend
                 first_purchase_at := none
                 last_purchase_at := none }] }
      | some _ =>
          { db with analytics := db.analytics.map (fun a =>
              if a.user_id == uid then
                { a with
                    total_spending_cents := acc.amount
                    total_purchases := acc.num
                    average_purchase_cents := avg
                    frequent_merchant := fm
                    frequent_merchant_amount := fm.bind (dictGet acc.mFreq)
                    merchant_freq := acc.mFreq
                    most_spent_merchant := sm
                    most_spent_merchant_amount := sm.bind (dictGet acc.mSpend)
                    merchant_spending := acc.mSpend
                    frequent_category := fc
                    frequent_category_amount := fc.bind (dictGet acc.cFreq)
                    category_freq := acc.cFreq
                    most_spent_category := sc
                    most_spent_category_amount := sc.bind (dictGet acc.cSpend)
                    category_spending := acc.cSpend }
              else a) }

/-- Typed errors raised by the scan endpoints (HTTPException 400s). -/
inductive ScanErr where
  | invalidDays
  | preconditionFailed
deriving Repr, DecidableEq

/-- scan.py `scan_initial`.  The two `datetime.utcnow()` calls are the clock
readings `tStart` (line 184, lower bound of the window) and `tEnd` (line 211,
stored into last_scan_at after all processing).  `fetch` abstracts
`get_gmail_service` + `fetch_emails` keyed by the lower-bound instant. -/
def scan_initial (tStart tEnd : Int) (fetch : Int → List Email)
    (extract : Email → Option ExtractedEmail) (fromiso : String → Option Int)
    (days : Int) (uid : String) (db : DB) :
    Except ScanErr (ScanResponse × DB) :=
  if days = 30 ∨ days = 90 ∨ days = 180 then
    let afterDate := tStart - days * 86400
    let emails := fetch afterDate
    let run := process_emails_into_queue backendConstraint extract fromiso
      emails uid db
    let db2 := parse_json uid run.2
    let db3 :=
      if (db2.scanSettings.find? (fun s => s.user_id == uid)).isSome then
        { db2 with scanSettings := db2.scanSettings.map (fun s =>
            if s.user_id == uid then
              { s with initial_scan_days := days, last_scan_at := some tEnd }
            else s) }
      else
        { db2 with scanSettings := db2.scanSettings ++
            [{ user_id := uid, initial_scan_days := days,
               last_scan_at := some tEnd }] }
    Except.ok (run.1, db3)
  else Except.error ScanErr.invalidDays

/-- scan.py `scan_new`: requires an existing cursor with a non-null
last_scan_at, otherwise HTTP 400 "run an initial scan first"; on success sets
last_scan_at to `tEnd` (the `datetime.utcnow()` of line 250, read after all
processing). -/
def scan_new (tEnd : Int) (fetch : Int → List Email)
    (extract : Email → Option ExtractedEmail) (fromiso : String → Option Int)
    (uid : String) (db : DB) : Except ScanErr (ScanResponse × DB) :=
  match db.scanSettings.find? (fun s => s.user_id == uid) with
  | none => Except.error ScanErr.preconditionFailed
  | some s =>
      match s.last_scan_at with
      | none => Except.error ScanErr.preconditionFailed
      | some lastAt =>
          let emails := fetch lastAt
          let run := process_emails_into_queue backendConstraint extract
            fromiso emails uid db
          let db2 := parse_json uid run.2
          let db3 := { db2 with scanSettings := db2.scanSettings.map (fun t =>
              if t.user_id == uid then { t with last_scan_at := some tEnd }
              else t) }
          Except.ok (run.1, db3)

/-- auth.py `_ensure_scan_settings`: create a ScanSettings row for the user if
absent; last_scan_at takes its column default, NULL. -/
def ensure_scan_settings (uid : String) (db : DB) : DB :=
  if (db.scanSettings.find? (fun s => s.user_id == uid)).isSome then db
  else
    { db with scanSettings := db.scanSettings ++
        [{ user_id := uid, initial_scan_days := 90, last_scan_at := none }] }

/-- review.py `ApproveBody`: the optional caller overrides. -/
structure ApproveBody where
  edited_item_name : Option String := none
  edited_price_cents : Option Int := none
  edited_category : Option String := none
deriving Repr, DecidableEq

/-- Outcome of `approve_item`: HTTP 404, HTTP 400 ("Item is already …"),
HTTP 422 (price required), or the success payload. -/
inductive ApproveResult where
  | notFound
  | conflict (currentStatus : String)
  | priceRequired
  | approved (wardrobeItemId : Nat) (itemName : String) (category : String)
      (priceCents : Int) (merchant : Option String)
deriving Repr, DecidableEq

/-- The scoped lookup both review endpoints use: first row matching
(item id, user id), with no status filter. -/
def findReviewItem (itemId : Nat) (uid : String) (db : DB) :
    Option ReviewQueueItem :=
  db.reviewItems.find? (fun r => r.id == itemId && r.user_id == uid)

/-- review.py `approve_item` (lines 98-189): 404 when no (id, user) row; 400
when the row is not pending; price resolved by `edited or stored` (Python
truthiness), 422 when still None; then the wardrobe Item insert and the flip
to "approved" are committed together. -/
def approve_item (itemId : Nat) (body : ApproveBody) (uid : String) (db : DB) :
    ApproveResult × DB :=
  match findReviewItem itemId uid db with
  | none => (ApproveResult.notFound, db)
  | some r =>
      if !(r.status == "pending") then (ApproveResult.conflict r.status, db)
      else
        match pyOrInt body.edited_price_cents r.price_cents with
        | none => (ApproveResult.priceRequired, db)
        | some finalPrice =>
            let finalCategory :=
              pyOrStrD (pyOrStr body.edited_category r.category) "Other"
            let finalName := pyOrStrD body.edited_item_name r.item_name
            let newItem : Item :=
              { id := db.nextId
                user_id := uid
                merchant := r.merchant
                item_name := finalName
                category := finalCategory
                size := r.size
                color := none
                price_cents := finalPrice
                currency := if r.currency == "" then "USD" else r.currency
                purchased_at := r.purchased_at
                wear_count := 0
                source := r.source
                image_url := r.image_url }
            (ApproveResult.approved newItem.id finalName finalCategory
               finalPrice r.merchant,
             { db with
                 items := db.items ++ [newItem]
                 reviewItems := db.reviewItems.map (fun q =>
                   if q.id == itemId && q.user_id == uid then
                     { q with status := "approved" }
                   else q)
                 nextId := db.nextId + 1 })

/-- Outcome of `reject_item`. -/
inductive RejectResult where
  | notFound
  | ok
deriving Repr, DecidableEq

/-- review.py `reject_item` (lines 193-215): 404 when no (id, user) row;
otherwise the status is set to "rejected" unconditionally — the current
status is never inspected. -/
def reject_item (itemId : Nat) (uid : String) (db : DB) : RejectResult × DB :=
  match findReviewItem itemId uid db with
  | none => (RejectResult.notFound, db)
  | some _ =>
      (RejectResult.ok,
       { db with reviewItems := db.reviewItems.map (fun q =>
           if q.id == itemId && q.user_id == uid then
             { q with status := "rejected" }
           else q) })

/-- The two candidate gates of scan.py lines 106-109 (classification gate and
confidence gate), as a database-independent predicate. -/
def gatePass (it : ExtractedItem) : Bool :=
  it.is_clothing && !(decide (it.confidence < CONFIDENCE_THRESHOLD))

/-- Number of rows the item loop commits for one email, as a pure function of
the extraction result (meaningful for the backend store, whose commits never
fail): gated candidates are dropped, repeated normalized names are skipped. -/
def numInserted : List ExtractedItem → List String → Nat
  | [], _ => 0
  | it :: rest, names =>
      if gatePass it then
        if names.contains (normalizeName it.item_name) then
          numInserted rest names
        else
          numInserted rest (names ++ [normalizeName it.item_name]) + 1
      else numInserted rest names

/-- An email is inert when processing it can never commit a row: its
extraction fails outright, or every candidate is gated out. -/
def emailInert (extract : Email → Option ExtractedEmail) (e : Email) : Prop :=
  match extract e with
  | none => True
  | some ex => numInserted ex.items [] = 0

/-- Two queue rows a human would see as the same purchase of the same email:
same user, same non-null message id, same case-folded trimmed item name. -/
def SameKey (a b : ReviewQueueItem) : Prop :=
  a.user_id = b.user_id ∧ a.email_message_id ≠ none ∧
  a.email_message_id = b.email_message_id ∧
  normalizeName a.item_name = normalizeName b.item_name

/-- The §3 invariant: no two committed rows share a (user, message id,
normalized item name) key. -/
def DupFree (rows : List ReviewQueueItem) : Prop :=
  rows.Pairwise (fun a b => ¬ SameKey a b)

/-- Specification-side meaning of "rounding half to even": z is within half a
unit of x, and an exact half tie goes to the even integer. -/
def RoundsHalfToEven (x : ℚ) (z : ℤ) : Prop :=
  |x - (z : ℚ)| < 1/2 ∨ (|x - (z : ℚ)| = 1/2 ∧ (2 : ℤ) ∣ z)

/-- Abstract date parser used by the concrete test fixtures: parses nothing. -/
def exFromiso : String → Option Int := fun _ => none

/-- The empty database. -/
def emptyDB : DB :=
  { reviewItems := []
    items := []
    scanSettings := []
    analytics := []
    nextId := 0 }

/-- A minimal fetched email with the given ids. -/
def mkEmail (m t : String) : Email :=
  { message_id := m
    thread_id := t
    subject := "Your order"
    plain_text := ""
    html_text := ""
    prices_found := []
    image_urls := [] }

/-- A confident wearable candidate named Shirt, priced 20.00. -/
def shirtItem : ExtractedItem :=
  { item_name := "Shirt"
    price := none
    purchased_at := none
    image_url := none
    category_guess := some "Tops"
    size := none
    confidence := mkRat 9 10
    is_clothing := true }

/-- A confident wearable candidate named Pants, priced 30.00. -/
def pantsItem : ExtractedItem :=
  { item_name := "Pants"
    price := none
    purchased_at := none
    image_url := none
    category_guess := some "Bottoms"
    size := none
    confidence := mkRat 9 10
    is_clothing := true }

/-- A confident non-wearable candidate (fails the classification gate). -/
def gadgetItem : ExtractedItem :=
  { item_name := "Phone case"
    price := none
    purchased_at := none
    image_url := none
    category_guess := some "Other"
    size := none
    confidence := mkRat 95 100
    is_clothing := false }

/-- A wearable candidate priced 49.99 (the spec's price-conversion example). -/
def sweaterItem : ExtractedItem :=
  { item_name := "Sweater"
    price := some (mkRat 4999 100)
    purchased_at := none
    image_url := none
    category_guess := some "Tops"
    size := none
    confidence := mkRat 9 10
    is_clothing := true }

/-- Deterministic adapter: email m1 yields two distinct wearable items. -/
def twoItemExtract : Email → Option ExtractedEmail := fun e =>
  if e.message_id == "m1" then
    some { merchant := some "Zara", items := [shirtItem, pantsItem] }
  else none

/-- Deterministic adapter: email m1 yields only a non-wearable item, so the
item loop commits nothing. -/
def gadgetExtract : Email → Option ExtractedEmail := fun e =>
  if e.message_id == "m1" then
    some { merchant := some "BestBuy", items := [gadgetItem] }
  else none

/-- A queue row in the terminal status "approved" (id 1, user u). -/
def approvedRow : ReviewQueueItem :=
  { id := 1
    user_id := "u"
    source := "gmail"
    status := "approved"
    merchant := some "Zara"
    item_name := "Shirt"
    category := some "Tops"
    size := none
    price_cents := some 2000
    currency := "USD"
    purchased_at := none
    email_message_id := some "m1"
    email_thread_id := some "t1"
    image_url := none }

/-- A pending queue row with a stored price of 500 cents (id 1, user u). -/
def pendingRow500 : ReviewQueueItem :=
  { approvedRow with status := "pending", price_cents := some 500 }

/-- A pending queue row with no price and a known purchase date. -/
def pendingRowDated : ReviewQueueItem :=
  { approvedRow with
      status := "pending"
      price_cents := none
      purchased_at := some 1700000000 }

/-- A pending queue row with neither price nor date. -/
def pendingRowNoPrice : ReviewQueueItem :=
  { approvedRow with status := "pending", price_cents := none }

/-- A database holding exactly one given review row. -/
def dbWith (r : ReviewQueueItem) : DB :=
  { reviewItems := [r]
    items := []
    scanSettings := []
    analytics := []
    nextId := 2 }

/-- The single-email batch used by the concrete scenarios. -/
def c2emails : List Email := [mkEmail "m1" "t1"]

/-- First run of the two-item scenario on an empty database. -/
def c2run1 : ScanResponse × DB :=
  process_emails_into_queue backendConstraint twoItemExtract exFromiso
    c2emails "u" emptyDB

/-- Second run of the two-item scenario, on the database the first run left. -/
def c2run2 : ScanResponse × DB :=
  process_emails_into_queue backendConstraint twoItemExtract exFromiso
    c2emails "u" c2run1.2

/-- First run of the non-wearable scenario (commits nothing). -/
def c8state1 : ScanState :=
  processEmails backendConstraint gadgetExtract exFromiso "u"
    { db := emptyDB, queued := 0, errors := 0, skipped := 0, calls := [] }
    c2emails

/-- Second run of the non-wearable scenario. -/
def c8state2 : ScanState :=
  processEmails backendConstraint gadgetExtract exFromiso "u"
    { db := c8state1.db, queued := 0, errors := 0, skipped := 0, calls := [] }
    c2emails

/-- A committed queue row identical (up to id) to what the item loop would
build for sweaterItem from email m1 — including its non-null price. -/
def builtSweaterRow : ReviewQueueItem :=
  buildRow exFromiso "u" "m1" "t1" (some "Zara") 5 none sweaterItem

/-- Item-loop state whose database already holds `builtSweaterRow`, so the
legacy unique index collides on the next sweater insert. -/
def stC4 : ItemState :=
  { db := dbWith builtSweaterRow, queued := 0, skipped := 0, names := [],
    imageIdx := 0 }

/-- C1: the review-queue state machine.  The code contradicts the claim on the
reject side: `reject_item` never inspects the current status, so rejecting an
already-approved row succeeds and flips it to "rejected" instead of failing
with a Conflict-style error; `approve_item` does guard (HTTP 400). -/
theorem C1_thm :
    (reject_item 1 "u" (dbWith approvedRow)).1 = RejectResult.ok ∧
    ((reject_item 1 "u" (dbWith approvedRow)).2.reviewItems.map
        ReviewQueueItem.status) = ["rejected"] ∧
    approvedRow.status = "approved" ∧
    (approve_item 1 {} "u" (dbWith approvedRow)).1
      = ApproveResult.conflict "approved" ∧
    (approve_item 1 {} "u" (dbWith approvedRow)).2 = dbWith approvedRow := by
  decide

/-- C5: the analytics recompute never computes first/last purchase
timestamps: with one non-rejected item carrying purchased_at = 1700000000,
the upserted row still has both timestamps NULL. -/
theorem C5_thm :
    ((parse_json "u" (dbWith pendingRowDated)).analytics.map
        (fun a => (a.first_purchase_at, a.last_purchase_at))) = [(none, none)] ∧
    pendingRowDated.purchased_at = some 1700000000 ∧
    (none : Option Int) ≠ some 1700000000 := by
  decide

/-- C2 counterexample: one email yields two items, so the first run queues 2;
the second run skips the email once at layer 1, so skipped_duplicates is 1,
not the first run's queued_count of 2. -/
theorem C2_counterexample :
    c2run1.1.queued_count = 2 ∧
    c2run2.1.queued_count = 0 ∧
    c2run2.1.skipped_duplicates = 1 ∧
    c2run2.1.skipped_duplicates ≠ c2run1.1.queued_count := by
  decide

/-- C3 counterexample: a successful initial scan whose clock reads 0 at scan
start and 5 at completion stores last_scan_at = 5 (the completion reading),
not 0 (the start reading the claim demands). -/
theorem C3_counterexample :
    (scan_initial 0 5 (fun _ => []) gadgetExtract exFromiso 90 "u" emptyDB)
      = Except.ok (⟨0, 0, 0, 0⟩,
          { emptyDB with scanSettings := [⟨"u", 90, some 5⟩] }) ∧
    some (5 : Int) ≠ some (0 : Int) :=
  ⟨rfl, by decide⟩

/-- C4 counterexample: against the backend store (which declares no unique
index on review_queue_items) two identical insert attempts — agreeing on
user id, message id and normalized item name — both commit; the second one
does not fail with a ConstraintViolation, and the table ends with two rows. -/
theorem C4_counterexample :
    (insert_pending backendConstraint pendingRow500 emptyDB).1
      = InsertResult.ok ∧
    (insert_pending backendConstraint pendingRow500
        (insert_pending backendConstraint pendingRow500 emptyDB).2).1
      ≠ InsertResult.constraintViolation ∧
    (insert_pending backendConstraint pendingRow500
        (insert_pending backendConstraint pendingRow500 emptyDB).2).2.reviewItems
      = [pendingRow500, pendingRow500] := by
  decide

/-- C6 counterexample: a single still-pending item with a null price already
contributes 1 to total_purchases (the claim says it must contribute 0 until
approved with a resolved price). -/
theorem C6_counterexample :
    ((parse_json "u" (dbWith pendingRowNoPrice)).analytics.map
        UserAnalytics.total_purchases) = [1] ∧
    pendingRowNoPrice.status = "pending" ∧
    pendingRowNoPrice.price_cents = none ∧
    (1 : Nat) ≠ 0 := by
  decide

/-- C7 counterexample: a caller-supplied price override of 0 does not win the
overlay — Python's `or` treats 0 as falsy, so the stored 500 is used. -/
theorem C7_counterexample :
    (approve_item 1 { edited_price_cents := some 0 } "u"
        (dbWith pendingRow500)).1
      = ApproveResult.approved 2 "Shirt" "Tops" 500 (some "Zara") ∧
    (500 : Int) ≠ 0 := by
  decide

/-- C8 counterexample: an email whose extraction yields no insertable item
leaves no queue row, so a second scan calls the extraction adapter for the
same (user, message id) again — twice in total, not at most once ever. -/
theorem C8_counterexample :
    c8state1.calls = ["m1"] ∧
    c8state2.calls = ["m1"] ∧
    (c8state1.calls ++ c8state2.calls).count "m1" = 2 := by
  decide

/-- The embedded Python `round` really does round half to even. -/
theorem pyRound_spec (q : ℚ) : RoundsHalfToEven q (pyRound q) := by
  have h0 : ((⌊q⌋ : ℤ) : ℚ) ≤ q := Int.floor_le q
  have h1 : q < ((⌊q⌋ : ℤ) : ℚ) + 1 := Int.lt_floor_add_one q
  unfold pyRound RoundsHalfToEven
  by_cases hlt : q - ((⌊q⌋ : ℤ) : ℚ) < 1/2
  · rw [if_pos hlt]
    left
    rw [abs_of_nonneg (by linarith)]
    linarith
  · rw [if_neg hlt]
    by_cases hgt : 1/2 < q - ((⌊q⌋ : ℤ) : ℚ)
    · rw [if_pos hgt]
      left
      push_cast
      rw [abs_of_nonpos (by linarith)]
      linarith
    · rw [if_neg hgt]
      have heq : q - ((⌊q⌋ : ℤ) : ℚ) = 1/2 := le_antisymm (not_lt.mp hgt) (not_lt.mp hlt)
      by_cases hpar : (⌊q⌋ : ℤ) % 2 = 0
      · rw [if_pos hpar]
        right
        refine ⟨by rw [abs_of_nonneg (by linarith)]; linarith, ?_⟩
        omega
      · rw [if_neg hpar]
        right
        refine ⟨?_, by omega⟩
        push_cast
        rw [abs_of_nonpos (by linarith)]
        linarith

/-- C10: price normalization.  A present decimal price is stored as the
half-to-even rounding of price × 100 in integer minor units; an absent price
is stored as NULL, never defaulted to zero. -/
theorem C10_thm :
    (∀ (fromiso : String → Option Int) (uid m t : String)
        (mer : Option String) (nid : Nat) (img : Option String)
        (it : ExtractedItem), it.price = none →
      (buildRow fromiso uid m t mer nid img it).price_cents = none) ∧
    (∀ (fromiso : String → Option Int) (uid m t : String)
        (mer : Option String) (nid : Nat) (img : Option String)
        (it : ExtractedItem) (p : ℚ), it.price = some p →
      (buildRow fromiso uid m t mer nid img it).price_cents
          = some (pyRound (p * 100)) ∧
      RoundsHalfToEven (p * 100) (pyRound (p * 100))) := by
  constructor
  · intro fromiso uid m t mer nid img it h
    simp [buildRow, h]
  · intro fromiso uid m t mer nid img it p h
    exact ⟨by simp [buildRow, h], pyRound_spec _⟩

/-- Witness for C10 at the spec's own example: price 49.99 is stored as 4999
minor units. -/
theorem C10_witness :
    (buildRow exFromiso "u" "m1" "t1" (some "Zara") 0 none
        sweaterItem).price_cents = some 4999 ∧
    RoundsHalfToEven (mkRat 4999 100 * 100) (pyRound (mkRat 4999 100 * 100)) := by
  have h := C10_thm.2 exFromiso "u" "m1" "t1" (some "Zara") 0 none sweaterItem
    (mkRat 4999 100) rfl
  refine ⟨h.1.trans ?_, h.2⟩
  have hv : (mkRat 4999 100 : ℚ) * 100 = (4999 : ℚ) := by
    rw [Rat.mkRat_eq_div]
    norm_num
  rw [hv]
  norm_num [pyRound]

/-- A non-wearable candidate leaves the loop state untouched. -/
theorem stepItem_not_clothing
    (violates : List ReviewQueueItem → ReviewQueueItem → Bool)
    (fromiso : String → Option Int) (uid m t : String) (mer : Option String)
    (avail : List String) (st : ItemState) (it : ExtractedItem)
    (h : it.is_clothing = false) :
    stepItem violates fromiso uid m t mer avail st it = st := by
  simp [stepItem, h]

/-- A candidate below the confidence threshold leaves the state untouched. -/
theorem stepItem_low_conf
    (violates : List ReviewQueueItem → ReviewQueueItem → Bool)
    (fromiso : String → Option Int) (uid m t : String) (mer : Option String)
    (avail : List String) (st : ItemState) (it : ExtractedItem)
    (h : it.is_clothing = true) (h2 : it.confidence < CONFIDENCE_THRESHOLD) :
    stepItem violates fromiso uid m t mer avail st it = st := by
  simp [stepItem, h, h2]

/-- A candidate whose normalized name was already inserted for this email is
counted as a skipped duplicate. -/
theorem stepItem_dup_name
    (violates : List ReviewQueueItem → ReviewQueueItem → Bool)
    (fromiso : String → Option Int) (uid m t : String) (mer : Option String)
    (avail : List String) (st : ItemState) (it : ExtractedItem)
    (h : it.is_clothing = true) (h2 : ¬ it.confidence < CONFIDENCE_THRESHOLD)
    (h3 : normalizeName it.item_name ∈ st.names) :
    stepItem violates fromiso uid m t mer avail st it
      = { st with skipped := st.skipped + 1 } := by
  simp [stepItem, h, h2, h3]

/-- A commit rejected by the store's uniqueness key rolls back and is counted
as a skipped duplicate (the image index, advanced before the commit, stays
advanced — as in the Python, where it is not rolled back). -/
theorem stepItem_violation
    (violates : List ReviewQueueItem → ReviewQueueItem → Bool)
    (fromiso : String → Option Int) (uid m t : String) (mer : Option String)
    (avail : List String) (st : ItemState) (it : ExtractedItem)
    (h : it.is_clothing = true) (h2 : ¬ it.confidence < CONFIDENCE_THRESHOLD)
    (h3 : normalizeName it.item_name ∉ st.names)
    (h4 : violates st.db.reviewItems
        (buildRow fromiso uid m t mer st.db.nextId
          (resolveImage avail st.imageIdx it.image_url).1 it) = true) :
    stepItem violates fromiso uid m t mer avail st it
      = { st with
            skipped := st.skipped + 1
            imageIdx := (resolveImage avail st.imageIdx it.image_url).2 } := by
  simp [stepItem, h, h2, h3, h4]

/-- A successful commit appends the built row, counts it as queued and
records its normalized name. -/
theorem stepItem_insert
    (violates : List ReviewQueueItem → ReviewQueueItem → Bool)
    (fromiso : String → Option Int) (uid m t : String) (mer : Option String)
    (avail : List String) (st : ItemState) (it : ExtractedItem)
    (h : it.is_clothing = true) (h2 : ¬ it.confidence < CONFIDENCE_THRESHOLD)
    (h3 : normalizeName it.item_name ∉ st.names)
    (h4 : violates st.db.reviewItems
        (buildRow fromiso uid m t mer st.db.nextId
          (resolveImage avail st.imageIdx it.image_url).1 it) = false) :
    stepItem violates fromiso uid m t mer avail st it
      = { db := { st.db with
              reviewItems := st.db.reviewItems ++
                [buildRow fromiso uid m t mer st.db.nextId
                  (resolveImage avail st.imageIdx it.image_url).1 it]
              nextId := st.db.nextId + 1 }
          queued := st.queued + 1
          skipped := st.skipped
          names := st.names ++ [normalizeName it.item_name]
          imageIdx := (resolveImage avail st.imageIdx it.image_url).2 } := by
  simp [stepItem, h, h2, h3, h4]

/-- gatePass is false for non-wearables. -/
theorem gatePass_not_clothing (it : ExtractedItem) (h : it.is_clothing = false) :
    gatePass it = false := by
  simp [gatePass, h]

/-- gatePass is false below the threshold. -/
theorem gatePass_low_conf (it : ExtractedItem)
    (h2 : it.confidence < CONFIDENCE_THRESHOLD) : gatePass it = false := by
  simp [gatePass, h2]

/-- gatePass is true for confident wearables. -/
theorem gatePass_true (it : ExtractedItem) (h : it.is_clothing = true)
    (h2 : ¬ it.confidence < CONFIDENCE_THRESHOLD) : gatePass it = true := by
  simp [gatePass, h, h2]

/-- Unfolding lemma for numInserted with the contains test phrased as
membership. -/
theorem numInserted_cons (it : ExtractedItem) (rest : List ExtractedItem)
    (names : List String) :
    numInserted (it :: rest) names
      = if gatePass it then
          (if normalizeName it.item_name ∈ names then numInserted rest names
           else numInserted rest (names ++ [normalizeName it.item_name]) + 1)
        else numInserted rest names := by
  simp [numInserted]

/-- Characterization of the item loop against the backend store (whose
commits never fail): it appends `numInserted` fresh rows, all owned by the
user and tagged with the email's message id, with pairwise-distinct
normalized names none of which was already recorded. -/
theorem itemLoop_backend_char (fromiso : String → Option Int)
    (uid m t : String) (mer : Option String) (avail : List String) :
    ∀ (items : List ExtractedItem) (st : ItemState),
      ∃ new : List ReviewQueueItem,
        (itemLoop backendConstraint fromiso uid m t mer avail st items).db
            = { st.db with
                  reviewItems := st.db.reviewItems ++ new
                  nextId := st.db.nextId + new.length } ∧
        (itemLoop backendConstraint fromiso uid m t mer avail st items).queued
            = st.queued + new.length ∧
        new.length = numInserted items st.names ∧
        (new.map (fun r => normalizeName r.item_name)).Nodup ∧
        (∀ r ∈ new, r.user_id = uid ∧ r.email_message_id = some m ∧
          normalizeName r.item_name ∉ st.names) := by
  intro items
  induction items with
  | nil =>
      intro st
      exact ⟨[], by simp [itemLoop], by simp [itemLoop], by simp [numInserted],
        by simp, by simp⟩
  | cons it rest ih =>
      intro st
      cases hcl : it.is_clothing with
      | false =>
          obtain ⟨new, h1, h2, h3, h4, h5⟩ := ih st
          refine ⟨new, ?_, ?_, ?_, h4, h5⟩
          · rw [itemLoop, stepItem_not_clothing _ _ _ _ _ _ _ _ _ hcl]
            exact h1
          · rw [itemLoop, stepItem_not_clothing _ _ _ _ _ _ _ _ _ hcl]
            exact h2
          · rw [numInserted_cons, gatePass_not_clothing it hcl]
            simp [h3]
      | true =>
          by_cases hconf : it.confidence < CONFIDENCE_THRESHOLD
          · obtain ⟨new, h1, h2, h3, h4, h5⟩ := ih st
            refine ⟨new, ?_, ?_, ?_, h4, h5⟩
            · rw [itemLoop, stepItem_low_conf _ _ _ _ _ _ _ _ _ hcl hconf]
              exact h1
            · rw [itemLoop, stepItem_low_conf _ _ _ _ _ _ _ _ _ hcl hconf]
              exact h2
            · rw [numInserted_cons, gatePass_low_conf it hconf]
              simp [h3]
          · by_cases hmem : normalizeName it.item_name ∈ st.names
            · obtain ⟨new, h1, h2, h3, h4, h5⟩ :=
                ih { st with skipped := st.skipped + 1 }
              refine ⟨new, ?_, ?_, ?_, h4, by simpa using h5⟩
              · rw [itemLoop, stepItem_dup_name _ _ _ _ _ _ _ _ _ hcl hconf hmem]
                simpa using h1
              · rw [itemLoop, stepItem_dup_name _ _ _ _ _ _ _ _ _ hcl hconf hmem]
                simpa using h2
              · rw [numInserted_cons, gatePass_true it hcl hconf, if_pos hmem]
                simpa using h3
            · obtain ⟨new, h1, h2, h3, h4, h5⟩ :=
                ih { db := { st.db with
                        reviewItems := st.db.reviewItems ++
                          [buildRow fromiso uid m t mer st.db.nextId
                            (resolveImage avail st.imageIdx it.image_url).1 it]
                        nextId := st.db.nextId + 1 }
                     queued := st.queued + 1
                     skipped := st.skipped
                     names := st.names ++ [normalizeName it.item_name]
                     imageIdx := (resolveImage avail st.imageIdx it.image_url).2 }
              refine ⟨buildRow fromiso uid m t mer st.db.nextId
                  (resolveImage avail st.imageIdx it.image_url).1 it :: new,
                ?_, ?_, ?_, ?_, ?_⟩
              · rw [itemLoop,
                  stepItem_insert _ _ _ _ _ _ _ _ _ hcl hconf hmem rfl]
                rw [h1]
                simp [List.append_assoc]
                omega
              · rw [itemLoop,
                  stepItem_insert _ _ _ _ _ _ _ _ _ hcl hconf hmem rfl]
                rw [h2]
                simp
                omega
              · rw [numInserted_cons, gatePass_true it hcl hconf, if_neg hmem]
                simpa using h3
              · refine List.nodup_cons.mpr ⟨?_, h4⟩
                intro hin
                obtain ⟨r, hr, hname⟩ := List.mem_map.mp hin
                have hname' : normalizeName r.item_name
                    = normalizeName it.item_name := by
                  simpa [buildRow] using hname
                have hc := (h5 r hr).2.2
                rw [List.mem_append] at hc
                push_neg at hc
                exact hc.2 (List.mem_singleton.mpr hname')
              · intro r hr
                rcases List.mem_cons.mp hr with hEq | hTail
                · subst hEq
                  exact ⟨rfl, rfl, hmem⟩
                · obtain ⟨ha, hb, hc⟩ := h5 r hTail
                  rw [List.mem_append] at hc
                  push_neg at hc
                  exact ⟨ha, hb, hc.1⟩

/-- When every candidate of an email is gated out, the item loop is a
no-op (given a fresh name set, as at the start of each email). -/
theorem itemLoop_stable (fromiso : String → Option Int) (uid m t : String)
    (mer : Option String) (avail : List String) :
    ∀ (items : List ExtractedItem) (st : ItemState), st.names = [] →
      numInserted items [] = 0 →
      itemLoop backendConstraint fromiso uid m t mer avail st items = st := by
  intro items
  induction items with
  | nil => intro st h0 h1; rfl
  | cons it rest ih =>
      intro st h0 h1
      have hg : gatePass it = false := by
        by_contra hcon
        have hgt : gatePass it = true := by
          cases hgb : gatePass it
          · exact absurd hgb hcon
          · rfl
        rw [numInserted_cons, hgt] at h1
        simp at h1
      have hstep : stepItem backendConstraint fromiso uid m t mer avail st it
          = st := by
        cases hcl : it.is_clothing with
        | false => exact stepItem_not_clothing _ _ _ _ _ _ _ _ _ hcl
        | true =>
            by_cases hconf : it.confidence < CONFIDENCE_THRESHOLD
            · exact stepItem_low_conf _ _ _ _ _ _ _ _ _ hcl hconf
            · rw [gatePass_true it hcl hconf] at hg
              exact absurd hg (by simp)
      have h1' : numInserted rest [] = 0 := by
        rwa [numInserted_cons, hg] at h1
      rw [itemLoop, hstep]
      exact ih st h0 h1'

/-- Layer-1 short-circuit, as an equation: when a row already exists for
(user, message id), processing the email only increments the
skipped-duplicates counter — no extraction call, no insert. -/
theorem processEmail_hasRow
    (violates : List ReviewQueueItem → ReviewQueueItem → Bool)
    (extract : Email → Option ExtractedEmail) (fromiso : String → Option Int)
    (uid : String) (st : ScanState) (e : Email)
    (h : hasRowFor st.db uid e.message_id = true) :
    processEmail violates extract fromiso uid st e
      = { st with skipped := st.skipped + 1 } := by
  simp [processEmail, h]

/-- A failed extraction only increments the error counter (and records the
adapter call). -/
theorem processEmail_extractFail
    (violates : List ReviewQueueItem → ReviewQueueItem → Bool)
    (extract : Email → Option ExtractedEmail) (fromiso : String → Option Int)
    (uid : String) (st : ScanState) (e : Email)
    (h : hasRowFor st.db uid e.message_id = false) (hx : extract e = none) :
    processEmail violates extract fromiso uid st e
      = { st with
            errors := st.errors + 1
            calls := st.calls ++ [e.message_id] } := by
  simp [processEmail, h, hx]

/-- Characterization of one email-loop step against the backend store: some
batch of fresh rows is appended, all owned by the user and tagged with this
email's message id, with pairwise-distinct normalized names; nothing is
appended when the email was already represented. -/
theorem processEmail_backend_char (extract : Email → Option ExtractedEmail)
    (fromiso : String → Option Int) (uid : String) (st : ScanState)
    (e : Email) :
    ∃ new : List ReviewQueueItem,
      (processEmail backendConstraint extract fromiso uid st e).db
          = { st.db with
                reviewItems := st.db.reviewItems ++ new
                nextId := st.db.nextId + new.length } ∧
      (∀ r ∈ new, r.user_id = uid ∧ r.email_message_id = some e.message_id) ∧
      (new.map (fun r => normalizeName r.item_name)).Nodup ∧
      (hasRowFor st.db uid e.message_id = true → new = []) ∧
      (processEmail backendConstraint extract fromiso uid st e).queued
          = st.queued + new.length := by
  cases h : hasRowFor st.db uid e.message_id with
  | true =>
      refine ⟨[], ?_, by simp, by simp, fun _ => rfl, ?_⟩
      · rw [processEmail_hasRow _ _ _ _ _ _ h]
        simp
      · rw [processEmail_hasRow _ _ _ _ _ _ h]
        simp
  | false =>
      cases hx : extract e with
      | none =>
          refine ⟨[], ?_, by simp, by simp, by simp [h], ?_⟩
          · rw [processEmail_extractFail _ _ _ _ _ _ h hx]
            simp
          · rw [processEmail_extractFail _ _ _ _ _ _ h hx]
            simp
      | some ex =>
          obtain ⟨new, h1, h2, h3, h4, h5⟩ :=
            itemLoop_backend_char fromiso uid e.message_id e.thread_id
              ex.merchant e.image_urls ex.items
              { db := st.db, queued := 0, skipped := 0, names := [],
                imageIdx := 0 }
          refine ⟨new, ?_, ?_, h4, by simp [h], ?_⟩
          · simp only [processEmail, h, hx]
            simpa using h1
          · intro r hr
            exact ⟨(h5 r hr).1, (h5 r hr).2.1⟩
          · simp only [processEmail, h, hx]
            simp [h2]

/-- Existing rows survive one email-loop step. -/
theorem hasRowFor_mono_processEmail (extract : Email → Option ExtractedEmail)
    (fromiso : String → Option Int) (uid : String) (st : ScanState)
    (e : Email) (x : String) (h : hasRowFor st.db uid x = true) :
    hasRowFor (processEmail backendConstraint extract fromiso uid st e).db
      uid x = true := by
  obtain ⟨new, h1, _, _, _, _⟩ :=
    processEmail_backend_char extract fromiso uid st e
  have : (processEmail backendConstraint extract fromiso uid st e).db.reviewItems
      = st.db.reviewItems ++ new := by rw [h1]
  rw [hasRowFor, this, List.any_append]
  rw [hasRowFor] at h
  simp [h]

/-- Existing rows survive the whole email loop. -/
theorem hasRowFor_mono_processEmails (extract : Email → Option ExtractedEmail)
    (fromiso : String → Option Int) (uid : String) :
    ∀ (emails : List Email) (st : ScanState) (x : String),
      hasRowFor st.db uid x = true →
      hasRowFor
        (processEmails backendConstraint extract fromiso uid st emails).db
        uid x = true := by
  intro emails
  induction emails with
  | nil => intro st x h; exact h
  | cons e rest ih =>
      intro st x h
      rw [processEmails]
      exact ih _ x (hasRowFor_mono_processEmail extract fromiso uid st e x h)

/-- After a batch run, every email of the batch is either represented by at
least one committed row or inert (its extraction can never commit a row). -/
theorem processEmails_covers (extract : Email → Option ExtractedEmail)
    (fromiso : String → Option Int) (uid : String) :
    ∀ (emails : List Email) (st : ScanState), ∀ e ∈ emails,
      hasRowFor
        (processEmails backendConstraint extract fromiso uid st emails).db
        uid e.message_id = true ∨ emailInert extract e := by
  intro emails
  induction emails with
  | nil => intro st e he; exact absurd he (List.not_mem_nil e)
  | cons e0 rest ih =>
      intro st e he
      rcases List.mem_cons.mp he with hEq | hTail
      · subst hEq
        cases h0 : hasRowFor st.db uid e.message_id with
        | true =>
            left
            rw [processEmails]
            exact hasRowFor_mono_processEmails extract fromiso uid rest _
              e.message_id
              (hasRowFor_mono_processEmail extract fromiso uid st e
                e.message_id h0)
        | false =>
            cases hx : extract e with
            | none => right; rw [emailInert, hx]; trivial
            | some ex =>
                by_cases hz : numInserted ex.items [] = 0
                · right; rw [emailInert, hx]; exact hz
                · left
                  obtain ⟨new, h1, h2, h3, h4, h5⟩ :=
                    itemLoop_backend_char fromiso uid e.message_id e.thread_id
                      ex.merchant e.image_urls ex.items
                      { db := st.db, queued := 0, skipped := 0, names := [],
                        imageIdx := 0 }
                  have hne : new ≠ [] := by
                    intro hnil
                    rw [hnil] at h3
                    exact hz h3.symm
                  obtain ⟨r, hr⟩ := List.exists_mem_of_ne_nil new hne
                  have hdbrows :
                      (processEmail backendConstraint extract fromiso uid st
                        e).db.reviewItems = st.db.reviewItems ++ new := by
                    simp only [processEmail, h0, hx]
                    simpa using congrArg DB.reviewItems h1
                  have hstep : hasRowFor
                      (processEmail backendConstraint extract fromiso uid st
                        e).db uid e.message_id = true := by
                    rw [hasRowFor, hdbrows, List.any_append]
                    have hany : new.any (fun rr => rr.user_id == uid &&
                        rr.email_message_id == some e.message_id) = true :=
                      List.any_eq_true.mpr ⟨r, hr,
                        by simp [(h5 r hr).1, (h5 r hr).2.1]⟩
                    simp [hany]
                  rw [processEmails]
                  exact hasRowFor_mono_processEmails extract fromiso uid rest _
                    e.message_id hstep
      · rw [processEmails]
        exact ih _ e hTail

/-- When every email of a batch is either already represented or inert, the
email loop commits nothing: the database is unchanged, nothing is queued,
and the skip counter grows by exactly one per already-represented email. -/
theorem processEmails_stable (extract : Email → Option ExtractedEmail)
    (fromiso : String → Option Int) (uid : String) :
    ∀ (emails : List Email) (st : ScanState),
      (∀ e ∈ emails, hasRowFor st.db uid e.message_id = false →
        emailInert extract e) →
      (processEmails backendConstraint extract fromiso uid st emails).db
          = st.db ∧
      (processEmails backendConstraint extract fromiso uid st emails).queued
          = st.queued ∧
      (processEmails backendConstraint extract fromiso uid st emails).skipped
          = st.skipped +
            emails.countP (fun e => hasRowFor st.db uid e.message_id) := by
  intro emails
  induction emails with
  | nil => intro st _; exact ⟨rfl, rfl, by simp [processEmails]⟩
  | cons e0 rest ih =>
      intro st hyp
      cases h0 : hasRowFor st.db uid e0.message_id with
      | true =>
          have hpe := processEmail_hasRow backendConstraint extract fromiso
            uid st e0 h0
          have hdb : (processEmail backendConstraint extract fromiso uid st
              e0).db = st.db := by rw [hpe]
          obtain ⟨i1, i2, i3⟩ := ih (processEmail backendConstraint extract
            fromiso uid st e0)
            (fun e he hf => hyp e (List.mem_cons_of_mem e0 he)
              (by rwa [hdb] at hf))
          rw [processEmails]
          refine ⟨by rw [i1, hdb], by rw [i2, hpe], ?_⟩
          rw [i3, hpe]
          simp only [List.countP_cons, hdb, h0]
          simp
          omega
      | false =>
          have hinert := hyp e0 (List.mem_cons_self e0 rest) h0
          have key : (processEmail backendConstraint extract fromiso uid st
                e0).db = st.db ∧
              (processEmail backendConstraint extract fromiso uid st
                e0).queued = st.queued ∧
              (processEmail backendConstraint extract fromiso uid st
                e0).skipped = st.skipped := by
            cases hx : extract e0 with
            | none =>
                rw [processEmail_extractFail backendConstraint extract fromiso
                  uid st e0 h0 hx]
                exact ⟨rfl, rfl, rfl⟩
            | some ex =>
                have hz : numInserted ex.items [] = 0 := by
                  rw [emailInert, hx] at hinert
                  exact hinert
                have hloop := itemLoop_stable fromiso uid e0.message_id
                  e0.thread_id ex.merchant e0.image_urls ex.items
                  { db := st.db, queued := 0, skipped := 0, names := [],
                    imageIdx := 0 } rfl hz
                simp only [processEmail, h0, hx]
                rw [hloop]
                exact ⟨rfl, rfl, rfl⟩
          obtain ⟨k1, k2, k3⟩ := key
          obtain ⟨i1, i2, i3⟩ := ih (processEmail backendConstraint extract
            fromiso uid st e0)
            (fun e he hf => hyp e (List.mem_cons_of_mem e0 he)
              (by rwa [k1] at hf))
          rw [processEmails]
          refine ⟨by rw [i1, k1], by rw [i2, k2], ?_⟩
          rw [i3, k3]
          simp only [List.countP_cons, k1, h0]
          simp

/-- C2 (amended): running the same batch twice against the backend store
queues nothing the second time, and the second run's skipped_duplicates
equals the number of batch emails represented by at least one row after the
first run — one per email, not one per item queued by the first run. -/
theorem C2_thm (extract : Email → Option ExtractedEmail)
    (fromiso : String → Option Int) (uid : String) (emails : List Email)
    (db0 : DB) :
    (process_emails_into_queue backendConstraint extract fromiso emails uid
        (process_emails_into_queue backendConstraint extract fromiso emails
          uid db0).2).1.queued_count = 0 ∧
    (process_emails_into_queue backendConstraint extract fromiso emails uid
        (process_emails_into_queue backendConstraint extract fromiso emails
          uid db0).2).1.skipped_duplicates
      = emails.countP (fun e =>
          hasRowFor (process_emails_into_queue backendConstraint extract
            fromiso emails uid db0).2 uid e.message_id) := by
  have hcov := processEmails_covers extract fromiso uid emails
    { db := db0, queued := 0, errors := 0, skipped := 0, calls := [] }
  have hyp : ∀ e ∈ emails,
      hasRowFor (processEmails backendConstraint extract fromiso uid
        { db := db0, queued := 0, errors := 0, skipped := 0, calls := [] }
        emails).db uid e.message_id = false → emailInert extract e := by
    intro e he hf
    rcases hcov e he with h | h
    · exact absurd hf (by simp [h])
    · exact h
  obtain ⟨s1, s2, s3⟩ := processEmails_stable extract fromiso uid emails
    { db := (processEmails backendConstraint extract fromiso uid
        { db := db0, queued := 0, errors := 0, skipped := 0, calls := [] }
        emails).db, queued := 0, errors := 0, skipped := 0, calls := [] }
    (fun e he hf => hyp e he (by simpa using hf))
  simp only [process_emails_into_queue]
  refine ⟨by simpa using s2, ?_⟩
  rw [show (0 : Nat) + emails.countP _ = _ from Nat.zero_add _] at s3
  simpa using s3

/-- C8 (amended): the email-level short-circuit holds exactly — when a row
already exists for (user, message id) the extraction adapter is not called,
nothing is inserted and skipped_duplicates is incremented; when no row
exists, the adapter IS called, so "at most once per (user, message id) ever"
holds only from the moment the email has at least one committed row. -/
theorem C8_thm (violates : List ReviewQueueItem → ReviewQueueItem → Bool)
    (extract : Email → Option ExtractedEmail) (fromiso : String → Option Int)
    (uid : String) (st : ScanState) (e : Email) :
    (hasRowFor st.db uid e.message_id = true →
      processEmail violates extract fromiso uid st e
        = { st with skipped := st.skipped + 1 }) ∧
    (hasRowFor st.db uid e.message_id = false →
      (processEmail violates extract fromiso uid st e).calls
        = st.calls ++ [e.message_id]) := by
  constructor
  · intro h
    exact processEmail_hasRow violates extract fromiso uid st e h
  · intro h
    cases hx : extract e with
    | none => simp [processEmail, h, hx]
    | some ex => simp [processEmail, h, hx]

/-- Witness for C8: with a row already present for (u, m1), processing email
m1 only bumps the skip counter — the calls list stays empty. -/
theorem C8_witness :
    processEmail backendConstraint gadgetExtract exFromiso "u"
      { db := dbWith approvedRow, queued := 0, errors := 0, skipped := 0,
        calls := [] } (mkEmail "m1" "t1")
      = { db := dbWith approvedRow, queued := 0, errors := 0,
          skipped := 0 + 1, calls := [] } :=
  (C8_thm backendConstraint gadgetExtract exFromiso "u"
    { db := dbWith approvedRow, queued := 0, errors := 0, skipped := 0,
      calls := [] } (mkEmail "m1" "t1")).1 (by decide)

/-- A field-preserving row transformation preserves duplicate-freedom. -/
theorem dupFree_map (rows : List ReviewQueueItem)
    (g : ReviewQueueItem → ReviewQueueItem)
    (hg : ∀ r, (g r).user_id = r.user_id ∧
      (g r).email_message_id = r.email_message_id ∧
      (g r).item_name = r.item_name)
    (hd : DupFree rows) : DupFree (rows.map g) := by
  rw [DupFree, List.pairwise_map]
  refine hd.imp ?_
  intro a b hnk hk
  apply hnk
  obtain ⟨h1, h2, h3, h4⟩ := hk
  obtain ⟨ga1, ga2, ga3⟩ := hg a
  obtain ⟨gb1, gb2, gb3⟩ := hg b
  rw [ga1, gb1] at h1
  rw [ga2] at h2
  rw [ga2, gb2] at h3
  rw [ga3, gb3] at h4
  exact ⟨h1, h2, h3, h4⟩

/-- One email-loop step preserves the (user, message id, normalized name)
uniqueness invariant. -/
theorem processEmail_dupFree (extract : Email → Option ExtractedEmail)
    (fromiso : String → Option Int) (uid : String) (st : ScanState)
    (e : Email) (hd : DupFree st.db.reviewItems) :
    DupFree (processEmail backendConstraint extract fromiso uid st
      e).db.reviewItems := by
  obtain ⟨new, h1, h2, h3, h4, h5⟩ :=
    processEmail_backend_char extract fromiso uid st e
  have hrows : (processEmail backendConstraint extract fromiso uid st
      e).db.reviewItems = st.db.reviewItems ++ new := by
    rw [h1]
  rw [hrows, DupFree, List.pairwise_append]
  refine ⟨hd, ?_, ?_⟩
  · have := (List.pairwise_map.mp h3)
    refine this.imp ?_
    intro a b hne hk
    exact hne hk.2.2.2
  · intro a ha b hb hk
    cases h : hasRowFor st.db uid e.message_id with
    | true =>
        rw [h4 h] at hb
        exact absurd hb (List.not_mem_nil b)
    | false =>
        obtain ⟨hbu, hbm⟩ := h2 b hb
        obtain ⟨h1k, h2k, h3k, h4k⟩ := hk
        have hau : a.user_id = uid := h1k.trans hbu
        have ham : a.email_message_id = some e.message_id := h3k.trans hbm
        have : hasRowFor st.db uid e.message_id = true := by
          rw [hasRowFor]
          exact List.any_eq_true.mpr ⟨a, ha, by simp [hau, ham]⟩
        rw [h] at this
        exact absurd this (by simp)

/-- The whole email loop preserves the uniqueness invariant. -/
theorem processEmails_dupFree (extract : Email → Option ExtractedEmail)
    (fromiso : String → Option Int) (uid : String) :
    ∀ (emails : List Email) (st : ScanState), DupFree st.db.reviewItems →
      DupFree (processEmails backendConstraint extract fromiso uid st
        emails).db.reviewItems := by
  intro emails
  induction emails with
  | nil => intro st hd; exact hd
  | cons e rest ih =>
      intro st hd
      rw [processEmails]
      exact ih _ (processEmail_dupFree extract fromiso uid st e hd)

/-- Approval flips a status in place, so it preserves the uniqueness
invariant. -/
theorem approve_item_dupFree (itemId : Nat) (body : ApproveBody)
    (uid : String) (db : DB) (hd : DupFree db.reviewItems) :
    DupFree (approve_item itemId body uid db).2.reviewItems := by
  cases hf : findReviewItem itemId uid db with
  | none => simp only [approve_item, hf]; exact hd
  | some r =>
      simp only [approve_item, hf]
      split
      · exact hd
      · cases hp : pyOrInt body.edited_price_cents r.price_cents with
        | none => exact hd
        | some v =>
            show DupFree (db.reviewItems.map (fun q =>
              if q.id == itemId && q.user_id == uid then
                { q with status := "approved" } else q))
            refine dupFree_map db.reviewItems _ ?_ hd
            intro q
            by_cases hq : (q.id == itemId && q.user_id == uid) = true
            · simp [hq]
            · simp [hq]

/-- Rejection likewise flips a status in place. -/
theorem reject_item_dupFree (itemId : Nat) (uid : String) (db : DB)
    (hd : DupFree db.reviewItems) :
    DupFree (reject_item itemId uid db).2.reviewItems := by
  cases hf : findReviewItem itemId uid db with
  | none => simp only [reject_item, hf]; exact hd
  | some r =>
      simp only [reject_item, hf]
      refine dupFree_map db.reviewItems _ ?_ hd
      intro q
      by_cases hq : (q.id == itemId && q.user_id == uid) = true
      · simp [hq]
      · simp [hq]

/-- C9: per-email item uniqueness.  Scanning, approval and rejection all
preserve the invariant that no two committed rows share (user, non-null
message id, normalized item name); and an email whose extraction yields two
wearable, confident candidates with identical normalized names commits
exactly one row, keeping the first-seen candidate's name. -/
theorem C9_thm :
    (∀ (extract : Email → Option ExtractedEmail)
        (fromiso : String → Option Int) (emails : List Email) (uid : String)
        (db : DB), DupFree db.reviewItems →
      DupFree (process_emails_into_queue backendConstraint extract fromiso
        emails uid db).2.reviewItems) ∧
    (∀ (itemId : Nat) (body : ApproveBody) (uid : String) (db : DB),
      DupFree db.reviewItems →
      DupFree (approve_item itemId body uid db).2.reviewItems) ∧
    (∀ (itemId : Nat) (uid : String) (db : DB), DupFree db.reviewItems →
      DupFree (reject_item itemId uid db).2.reviewItems) ∧
    (∀ (extract : Email → Option ExtractedEmail)
        (fromiso : String → Option Int) (uid : String) (st : ScanState)
        (e : Email) (ex : ExtractedEmail) (it1 it2 : ExtractedItem),
      extract e = some ex → ex.items = [it1, it2] →
      it1.is_clothing = true → it2.is_clothing = true →
      ¬ it1.confidence < CONFIDENCE_THRESHOLD →
      ¬ it2.confidence < CONFIDENCE_THRESHOLD →
      normalizeName it2.item_name = normalizeName it1.item_name →
      hasRowFor st.db uid e.message_id = false →
      (processEmail backendConstraint extract fromiso uid st
          e).db.reviewItems
        = st.db.reviewItems ++
          [buildRow fromiso uid e.message_id e.thread_id ex.merchant
            st.db.nextId (resolveImage e.image_urls 0 it1.image_url).1 it1]) := by
  refine ⟨?_, approve_item_dupFree, reject_item_dupFree, ?_⟩
  · intro extract fromiso emails uid db hd
    simp only [process_emails_into_queue]
    exact processEmails_dupFree extract fromiso uid emails
      { db := db, queued := 0, errors := 0, skipped := 0, calls := [] } hd
  · intro extract fromiso uid st e ex it1 it2 hx hits hc1 hc2 hf1 hf2 hnm h0
    simp only [processEmail, h0, hx, hits]
    rw [itemLoop, stepItem_insert _ _ _ _ _ _ _ _ _ hc1 hf1
      (by simp) rfl]
    rw [itemLoop, stepItem_dup_name _ _ _ _ _ _ _ _ _ hc2 hf2
      (by simp [hnm])]
    rfl

/-- find? over a keyed in-place update returns the updated row. -/
theorem find?_map_if {α : Type} (p : α → Bool) (g : α → α)
    (hg : ∀ a, p (g a) = p a) :
    ∀ l : List α, (l.map (fun a => if p a then g a else a)).find? p
      = (l.find? p).map g := by
  intro l
  induction l with
  | nil => rfl
  | cons a rest ih =>
      cases hp : p a with
      | true =>
          have hhead : (if p a = true then g a else a) = g a := by simp [hp]
          rw [List.map_cons, hhead,
            List.find?_cons_of_pos _ (by rw [hg a]; exact hp),
            List.find?_cons_of_pos _ hp]
          rfl
      | false =>
          have hhead : (if p a = true then g a else a) = a := by simp [hp]
          rw [List.map_cons, hhead,
            List.find?_cons_of_neg _ (by simp [hp]),
            List.find?_cons_of_neg _ (by simp [hp])]
          exact ih

/-- find? skips a prefix that contains no match. -/
theorem find?_append_none {α : Type} (p : α → Bool) (l2 : List α) :
    ∀ l1 : List α, l1.find? p = none → (l1 ++ l2).find? p = l2.find? p := by
  intro l1
  induction l1 with
  | nil => intro _; rfl
  | cons a rest ih =>
      intro h
      cases hp : p a with
      | true => rw [List.find?_cons_of_pos _ hp] at h; exact absurd h (by simp)
      | false =>
          rw [List.find?_cons_of_neg _ (by rw [hp]; simp)] at h
          rw [List.cons_append, List.find?_cons_of_neg _ (by rw [hp]; simp)]
          exact ih h

/-- One backend email-loop step only touches review rows and the id counter. -/
theorem processEmail_frame (extract : Email → Option ExtractedEmail)
    (fromiso : String → Option Int) (uid : String) (st : ScanState)
    (e : Email) :
    (processEmail backendConstraint extract fromiso uid st e).db.scanSettings
        = st.db.scanSettings ∧
    (processEmail backendConstraint extract fromiso uid st e).db.items
        = st.db.items ∧
    (processEmail backendConstraint extract fromiso uid st e).db.analytics
        = st.db.analytics := by
  obtain ⟨new, h1, _⟩ := processEmail_backend_char extract fromiso uid st e
  exact ⟨by rw [h1], by rw [h1], by rw [h1]⟩

/-- The backend email loop only touches review rows and the id counter. -/
theorem processEmails_frame (extract : Email → Option ExtractedEmail)
    (fromiso : String → Option Int) (uid : String) :
    ∀ (emails : List Email) (st : ScanState),
      (processEmails backendConstraint extract fromiso uid st
          emails).db.scanSettings = st.db.scanSettings ∧
      (processEmails backendConstraint extract fromiso uid st
          emails).db.items = st.db.items ∧
      (processEmails backendConstraint extract fromiso uid st
          emails).db.analytics = st.db.analytics := by
  intro emails
  induction emails with
  | nil => intro st; exact ⟨rfl, rfl, rfl⟩
  | cons e rest ih =>
      intro st
      obtain ⟨f1, f2, f3⟩ := processEmail_frame extract fromiso uid st e
      obtain ⟨i1, i2, i3⟩ := ih (processEmail backendConstraint extract
        fromiso uid st e)
      rw [processEmails]
      exact ⟨i1.trans f1, i2.trans f2, i3.trans f3⟩

/-- The analytics recompute only touches the analytics table. -/
theorem parse_json_frame (uid : String) (db : DB) :
    (parse_json uid db).scanSettings = db.scanSettings ∧
    (parse_json uid db).reviewItems = db.reviewItems ∧
    (parse_json uid db).items = db.items ∧
    (parse_json uid db).nextId = db.nextId := by
  simp only [parse_json]
  split
  · exact ⟨rfl, rfl, rfl, rfl⟩
  · split
    · exact ⟨rfl, rfl, rfl, rfl⟩
    · split <;> exact ⟨rfl, rfl, rfl, rfl⟩

/-- C3 (amended): every successful scan stores the clock reading taken AFTER
processing (the scan's completion time, the second `datetime.utcnow()`), not
the start reading used for the window; last_scan_at is null until the first
successful scan (the auth helper creates the row with its NULL default). -/
theorem C3_thm :
    (∀ (tStart tEnd : Int) (fetch : Int → List Email)
        (extract : Email → Option ExtractedEmail)
        (fromiso : String → Option Int) (days : Int) (uid : String) (db : DB)
        (resp : ScanResponse) (db3 : DB),
      scan_initial tStart tEnd fetch extract fromiso days uid db
          = Except.ok (resp, db3) →
      ∃ s, db3.scanSettings.find? (fun t => t.user_id == uid) = some s ∧
        s.last_scan_at = some tEnd ∧ s.initial_scan_days = days) ∧
    (∀ (tEnd : Int) (fetch : Int → List Email)
        (extract : Email → Option ExtractedEmail)
        (fromiso : String → Option Int) (uid : String) (db : DB)
        (resp : ScanResponse) (db3 : DB),
      scan_new tEnd fetch extract fromiso uid db = Except.ok (resp, db3) →
      ∃ s, db3.scanSettings.find? (fun t => t.user_id == uid) = some s ∧
        s.last_scan_at = some tEnd) ∧
    (∀ (uid : String) (db : DB),
      db.scanSettings.find? (fun t => t.user_id == uid) = none →
      ∃ s, (ensure_scan_settings uid db).scanSettings.find?
          (fun t => t.user_id == uid) = some s ∧ s.last_scan_at = none) := by
  refine ⟨?_, ?_, ?_⟩
  · intro tStart tEnd fetch extract fromiso days uid db resp db3 h
    simp only [scan_initial] at h
    split at h
    · injection h with hpair
      injection hpair with h1 h2
      subst h2
      split
      · rename_i hsome
        obtain ⟨s0, hs0⟩ := Option.isSome_iff_exists.mp hsome
        rw [find?_map_if (fun t : ScanSettings => t.user_id == uid) (fun s => { s with initial_scan_days := days, last_scan_at := some tEnd }) (fun a => rfl), hs0]
        exact ⟨_, rfl, rfl, rfl⟩
      · rename_i hnone
        have hn : (parse_json uid (process_emails_into_queue backendConstraint
            extract fromiso (fetch (tStart - days * 86400)) uid
            db).2).scanSettings.find? (fun s : ScanSettings =>
              s.user_id == uid) = none := by
          cases hfind : (parse_json uid (process_emails_into_queue
              backendConstraint extract fromiso
              (fetch (tStart - days * 86400)) uid db).2).scanSettings.find?
              (fun s : ScanSettings => s.user_id == uid) with
          | none => rfl
          | some s0 => exact absurd (by rw [hfind]; rfl) hnone
        rw [find?_append_none _ _ _ hn, List.find?_cons_of_pos _ (by simp)]
        exact ⟨_, rfl, rfl, rfl⟩
    · exact absurd h (by simp)
  · intro tEnd fetch extract fromiso uid db resp db3 h
    simp only [scan_new] at h
    split at h
    · simp at h
    · rename_i s hfind
      split at h
      · simp at h
      · rename_i lastAt hlast
        simp only [Except.ok.injEq, Prod.mk.injEq] at h
        obtain ⟨h1, h2⟩ := h
        subst h2
        have hframe : (parse_json uid (process_emails_into_queue
            backendConstraint extract fromiso (fetch lastAt) uid
            db).2).scanSettings = db.scanSettings := by
          rw [(parse_json_frame uid _).1]
          simp only [process_emails_into_queue]
          exact (processEmails_frame extract fromiso uid (fetch lastAt)
            { db := db, queued := 0, errors := 0, skipped := 0,
              calls := [] }).1
        rw [find?_map_if (fun t : ScanSettings => t.user_id == uid) (fun t => { t with last_scan_at := some tEnd }) (fun a => rfl), hframe, hfind]
        exact ⟨_, rfl, rfl⟩
  · intro uid db h
    rw [ensure_scan_settings, if_neg (by simp [h])]
    rw [find?_append_none _ _ _ h, List.find?_cons_of_pos _ (by simp)]
    exact ⟨_, rfl, rfl⟩

/-- Witness for C3: the concrete successful initial scan of the
counterexample scenario indeed carries last_scan_at = completion reading 5. -/
theorem C3_witness :
    ∃ s, ({ emptyDB with scanSettings :=
        [{ user_id := "u", initial_scan_days := 90, last_scan_at := some 5 }]
      } : DB).scanSettings.find? (fun t => t.user_id == "u") = some s ∧
      s.last_scan_at = some 5 ∧ s.initial_scan_days = 90 :=
  C3_thm.1 0 5 (fun _ => []) gadgetExtract exFromiso 90 "u" emptyDB
    ⟨0, 0, 0, 0⟩ _ rfl

/-- C4 (amended): the final backend models declare no uniqueness key on
review_queue_items — a colliding second commit succeeds rather than failing
with a ConstraintViolation (the legacy models' key was (user_id,
email_message_id, item_name, price_cents), raw name with price, not the
claimed normalized triple); and whenever a store DOES signal a uniqueness
violation, the scan loop converts it into a skipped-duplicates increment and
continues with the remaining items. -/
theorem C4_thm :
    (∀ (row : ReviewQueueItem) (db : DB),
      insert_pending backendConstraint row db
        = (InsertResult.ok,
           { db with reviewItems := db.reviewItems ++ [row] })) ∧
    (∀ (violates : List ReviewQueueItem → ReviewQueueItem → Bool)
        (fromiso : String → Option Int) (uid m t : String)
        (mer : Option String) (avail : List String) (st : ItemState)
        (it : ExtractedItem) (rest : List ExtractedItem),
      it.is_clothing = true → ¬ it.confidence < CONFIDENCE_THRESHOLD →
      normalizeName it.item_name ∉ st.names →
      violates st.db.reviewItems (buildRow fromiso uid m t mer st.db.nextId
        (resolveImage avail st.imageIdx it.image_url).1 it) = true →
      itemLoop violates fromiso uid m t mer avail st (it :: rest)
        = itemLoop violates fromiso uid m t mer avail
            { st with
                skipped := st.skipped + 1
                imageIdx := (resolveImage avail st.imageIdx it.image_url).2 }
            rest) := by
  constructor
  · intro row db
    simp [insert_pending, backendConstraint]
  · intro violates fromiso uid m t mer avail st it rest h1 h2 h3 h4
    rw [itemLoop, stepItem_violation _ _ _ _ _ _ _ _ _ h1 h2 h3 h4]

/-- Witness for C4: against the legacy unique index, re-inserting the
sweater for the same (user, message id) collides and is converted into a
skip, the loop carrying on. -/
theorem C4_witness :
    itemLoop legacyDedupeIndex exFromiso "u" "m1" "t1" (some "Zara") [] stC4
      [sweaterItem]
      = itemLoop legacyDedupeIndex exFromiso "u" "m1" "t1" (some "Zara") []
          { stC4 with
              skipped := stC4.skipped + 1
              imageIdx := (resolveImage [] stC4.imageIdx
                sweaterItem.image_url).2 } [] :=
  C4_thm.2 legacyDedupeIndex exFromiso "u" "m1" "t1" (some "Zara") [] stC4
    sweaterItem [] (by decide) (by decide) (by simp [stC4])
    (by simp [legacyDedupeIndex, stC4, dbWith, builtSweaterRow, buildRow, sweaterItem])

/-- Witness for C9: the uniqueness invariant holds after the concrete
two-item scan on the empty database. -/
theorem C9_witness :
    DupFree (process_emails_into_queue backendConstraint twoItemExtract
      exFromiso c2emails "u" emptyDB).2.reviewItems :=
  C9_thm.1 twoItemExtract exFromiso c2emails "u" emptyDB List.Pairwise.nil

/-- The analytics loop counts every item exactly once and sums prices with
null treated as zero. -/
theorem analyticsLoop_char :
    ∀ (items : List ReviewQueueItem) (acc : AnalyticsAcc),
      (analyticsLoop acc items).num = acc.num + items.length ∧
      (analyticsLoop acc items).amount
        = acc.amount + (items.map (fun r => pyOrIntD r.price_cents 0)).sum := by
  intro items
  induction items with
  | nil => intro acc; exact ⟨by simp [analyticsLoop], by simp [analyticsLoop]⟩
  | cons it rest ih =>
      intro acc
      obtain ⟨i1, i2⟩ := ih (analyticsStep acc it)
      rw [analyticsLoop]
      constructor
      · rw [i1]
        simp [analyticsStep]
        omega
      · rw [i2]
        simp [analyticsStep]
        omega

/-- C6 (amended): every non-rejected queue item — including a still-pending
one with a null price — contributes exactly 1 to total_purchases, and a null
price contributes 0 to total spend; each row is counted exactly once per
recompute (analytics reads only queue rows, and approval flips a status in
place rather than adding a row). -/
theorem C6_thm (uid : String) (db : DB) (h : nonRejectedItems db uid ≠ []) :
    ∃ a, (parse_json uid db).analytics.find? (fun x => x.user_id == uid)
        = some a ∧
      a.total_purchases = (nonRejectedItems db uid).length ∧
      a.total_spending_cents
        = ((nonRejectedItems db uid).map
            (fun r => pyOrIntD r.price_cents 0)).sum := by
  have hie : (nonRejectedItems db uid).isEmpty = false := by
    cases hl : nonRejectedItems db uid with
    | nil => exact absurd hl h
    | cons a l => rfl
  obtain ⟨c1, c2⟩ := analyticsLoop_char (nonRejectedItems db uid)
    (⟨0, 0, [], [], [], []⟩ : AnalyticsAcc)
  have hnum : (analyticsLoop (⟨0, 0, [], [], [], []⟩ : AnalyticsAcc)
      (nonRejectedItems db uid)).num = (nonRejectedItems db uid).length := by
    rw [c1]
    simp
  have hamt : (analyticsLoop (⟨0, 0, [], [], [], []⟩ : AnalyticsAcc)
      (nonRejectedItems db uid)).amount
      = ((nonRejectedItems db uid).map
          (fun r => pyOrIntD r.price_cents 0)).sum := by
    rw [c2]
    simp
  have hnz : ¬ (analyticsLoop (⟨0, 0, [], [], [], []⟩ : AnalyticsAcc)
      (nonRejectedItems db uid)).num = 0 := by
    rw [hnum]
    intro hzero
    exact h (List.eq_nil_of_length_eq_zero hzero)
  simp only [parse_json, hie, Bool.false_eq_true, if_false, if_neg hnz]
  split
  · rename_i a0 hfind
    rw [find?_append_none _ _ _ ?hn, List.find?_cons_of_pos _ (by simp)]
    case hn =>
      cases hf2 : db.analytics.find? (fun a => a.user_id == uid) with
      | none => rfl
      | some x => rw [hf2] at hfind; exact absurd hfind (by simp)
    exact ⟨_, rfl, hnum, hamt⟩
  · rename_i a0 hfind
    rw [find?_map_if (fun x : UserAnalytics => x.user_id == uid) _
      (by intro a; rfl), hfind]
    exact ⟨_, rfl, hnum, hamt⟩

/-- Witness for C6: the concrete pending null-price item yields an analytics
row counting it once with zero spend. -/
theorem C6_witness :
    ∃ a, (parse_json "u" (dbWith pendingRowNoPrice)).analytics.find?
        (fun x => x.user_id == "u") = some a ∧
      a.total_purchases = (nonRejectedItems (dbWith pendingRowNoPrice)
        "u").length ∧
      a.total_spending_cents
        = ((nonRejectedItems (dbWith pendingRowNoPrice) "u").map
            (fun r => pyOrIntD r.price_cents 0)).sum :=
  C6_thm "u" (dbWith pendingRowNoPrice) (by decide)

/-- C7 (amended): approve_item returns 404 exactly when no (item id, user)
row exists — regardless of status; a non-pending row yields a Conflict-style
400, leaving the database untouched; a pending row whose price is still
unresolved after the Python-truthiness overlay (an override of None or 0
falls back to the stored value) yields 422, database untouched; on success
the wardrobe Item insert and the flip to "approved" land in the same commit,
with name/category resolved by the same truthiness overlay (category falling
back to "Other"). -/
theorem C7_thm (itemId : Nat) (body : ApproveBody) (uid : String) (db : DB) :
    ((approve_item itemId body uid db).1 = ApproveResult.notFound ↔
      findReviewItem itemId uid db = none) ∧
    (∀ s, (approve_item itemId body uid db).1 = ApproveResult.conflict s →
      ∃ r, findReviewItem itemId uid db = some r ∧ r.status = s ∧
        ¬ s = "pending" ∧ (approve_item itemId body uid db).2 = db) ∧
    ((approve_item itemId body uid db).1 = ApproveResult.priceRequired →
      ∃ r, findReviewItem itemId uid db = some r ∧ r.status = "pending" ∧
        pyOrInt body.edited_price_cents r.price_cents = none ∧
        (approve_item itemId body uid db).2 = db) ∧
    (∀ w i c p m,
      (approve_item itemId body uid db).1
          = ApproveResult.approved w i c p m →
      ∃ r, findReviewItem itemId uid db = some r ∧ r.status = "pending" ∧
        pyOrInt body.edited_price_cents r.price_cents = some p ∧
        i = pyOrStrD body.edited_item_name r.item_name ∧
        c = pyOrStrD (pyOrStr body.edited_category r.category) "Other" ∧
        m = r.merchant ∧
        (approve_item itemId body uid db).2.items = db.items ++
          [{ id := db.nextId, user_id := uid, merchant := r.merchant, item_name := i, category := c, size := r.size, color := none, price_cents := p, currency := if r.currency == "" then "USD" else r.currency, purchased_at := r.purchased_at, wear_count := 0, source := r.source, image_url := r.image_url }] ∧
        (approve_item itemId body uid db).2.reviewItems
          = db.reviewItems.map (fun q =>
              if q.id == itemId && q.user_id == uid then
                { q with status := "approved" } else q)) := by
  cases hf : findReviewItem itemId uid db with
  | none =>
      simp only [approve_item, hf]
      refine ⟨by simp, ?_, ?_, ?_⟩
      · intro s hs; exact absurd hs (by simp)
      · intro hs; exact absurd hs (by simp)
      · intro w i c p m hs; exact absurd hs (by simp)
  | some r =>
      simp only [approve_item, hf]
      by_cases hs : r.status = "pending"
      · have hb : (r.status == "pending") = true := by simp [hs]
        rw [if_neg (by simp [hb])]
        cases hp : pyOrInt body.edited_price_cents r.price_cents with
        | none =>
            refine ⟨by simp, ?_, ?_, ?_⟩
            · intro s hcs; exact absurd hcs (by simp)
            · intro _; exact ⟨r, rfl, hs, hp, rfl⟩
            · intro w i c p m hcs; exact absurd hcs (by simp)
        | some v =>
            refine ⟨by simp, ?_, ?_, ?_⟩
            · intro s hcs; exact absurd hcs (by simp)
            · intro hcs; exact absurd hcs (by simp)
            · intro w i c p m hyp
              simp only [ApproveResult.approved.injEq] at hyp
              obtain ⟨hw, hi, hc, hpv, hm⟩ := hyp
              subst hw hi hc hpv hm
              exact ⟨r, rfl, hs, hp, rfl, rfl, rfl, rfl, rfl⟩
      · have hb : (r.status == "pending") = false := by simp [hs]
        rw [if_pos (by simp [hb])]
        refine ⟨by simp, ?_, ?_, ?_⟩
        · intro s hcs
          simp only [ApproveResult.conflict.injEq] at hcs
          subst hcs
          exact ⟨r, rfl, rfl, hs, rfl⟩
        · intro hcs; exact absurd hcs (by simp)
        · intro w i c p m hcs; exact absurd hcs (by simp)

/-- Witness for C7 at a terminal row: approving an already-approved row
fails with the Conflict-style error and leaves the database untouched. -/
theorem C7_witness :
    ∃ r, findReviewItem 1 "u" (dbWith approvedRow) = some r ∧
      r.status = "approved" ∧ ¬ "approved" = "pending" ∧
      (approve_item 1 {} "u" (dbWith approvedRow)).2 = dbWith approvedRow :=
  (C7_thm 1 {} "u" (dbWith approvedRow)).2.1 "approved" (by decide)
